import Mathlib

/-!
Verification of the CI pipeline monitor `bin/ci/ci_run_n_monitor.py`.

The Python script is shallowly embedded: Python dicts (insertion-ordered,
as `statuses` / `target_statuses` are used) become association lists over
job ids; side effects (prints, remote enable/retry/cancel requests,
history assignments) become an explicit event trace; the `while True`
monitor loop is modelled by its one-iteration body together with the
termination decision it produces (`none` = loop again, `some r` = return
`r` from `monitor_pipeline`).
-/

/-! ## Python string membership (`needle in haystack` is substring containment) -/

/-- Python `a in b` on strings: `a` occurs as a contiguous substring of `b`.
Modelled on the character lists of the two strings. -/
def isSubstringList (needle : List Char) : List Char → Bool
  | [] => needle.isEmpty
  | c :: t => needle.isPrefixOf (c :: t) || isSubstringList needle t

/-- Python `needle in haystack` for strings. -/
def pyStrIn (needle haystack : String) : Bool :=
  isSubstringList needle.data haystack.data

/-! ## Python dict over job ids (insertion-ordered association list) -/

/-- Lookup `d[k]`; `none` models `k not in d`. -/
def dictGet : List (Nat × String) → Nat → Option String
  | [], _ => none
  | (k, v) :: t, j => if k = j then some v else dictGet t j

/-- Assignment `d[k] = v`: update in place when the key exists, append
otherwise (Python dicts preserve insertion order). -/
def dictInsert : List (Nat × String) → Nat → String → List (Nat × String)
  | [], j, s => [(j, s)]
  | (k, v) :: t, j, s => if k = j then (j, s) :: t else (k, v) :: dictInsert t j s

/-- Values `d.values()` in iteration order. -/
def dictValues (d : List (Nat × String)) : List String :=
  d.map Prod.snd

/-! ## Data model -/

/-- The fixed status enumeration of the data model (keys of `STATUS_COLORS`). -/
def STATUS_LIST : List String :=
  ["created", "running", "success", "failed", "canceled", "manual", "pending", "skipped"]

/-- The source constant `COMPLETED_STATUSES = ["success", "failed"]`. -/
def COMPLETED_STATUSES : List String := ["success", "failed"]

/-- Snapshot of a GitLab job as polled: identity, name, web URL, status. -/
structure Job where
  id : Nat
  name : String
  web_url : String
  status : String
deriving DecidableEq

/-- Inputs of `monitor_pipeline` that stay fixed during the run.  The compiled
regex is embedded as its (opaque) match-at-start function on job names;
`target_job = none` models the `--target` flag being absent. -/
structure Config where
  target_job : Option (String → Bool)
  dependencies : List String
  force_manual : Bool
  stress : Bool

/-- The mutable local state of `monitor_pipeline`'s loop. -/
structure MonitorState where
  statuses : List (Nat × String)
  target_statuses : List (Nat × String)
  stress_succ : Nat
  stress_fail : Nat
  to_cancel : List Job

/-- Observable effects of one loop iteration, in program order: remote
mutation requests, printed status lines, and dict assignments. -/
inductive Event where
  | enable (jobId : Nat) (target : Bool)
  | retry (jobId : Nat)
  | cancel (jobId : Nat)
  | statusChangedLine (jobId : Nat)
  | statusLine (jobId : Nat)
  | historyWrite (targetHist : Bool) (jobId : Nat) (status : String)
  | stressTally (succ fail : Nat)
  | separator
deriving DecidableEq

/-- The test `target_job and target_jobs_regex.match(job.name)`: the job is
classified as a target. -/
def isTargetJob (cfg : Config) (job : Job) : Bool :=
  match cfg.target_job with
  | some matcher => matcher job.name
  | none => false

/-- The change test of the status tracker:
`(job.id not in hist) or (job.status not in hist[job.id])`
(the inner `not in` is Python substring non-containment). -/
def status_changed (hist : List (Nat × String)) (jobId : Nat) (status : String) : Bool :=
  match dictGet hist jobId with
  | none => true
  | some stored => !(pyStrIn status stored)

/-- Source function `print_job_status`: prints the routine ("unchanged")
status line, except that canceled jobs print nothing. -/
def print_job_status (job : Job) : List Event :=
  if job.status = "canceled" then [] else [Event.statusLine job.id]

/-- Source function `print_job_status_change`: prints the "new status" line,
except that canceled jobs print nothing. -/
def print_job_status_change (job : Job) : List Event :=
  if job.status = "canceled" then [] else [Event.statusChangedLine job.id]

/-- Body of the `for job in pipeline.jobs.list(...)` loop for one job:
target branch (enable / stress-retry / target history tracking, then
`continue`), or the all-jobs branch (general history tracking, dependency
enabling, cancel marking). -/
def process_job (cfg : Config) (st : MonitorState) (job : Job) : MonitorState × List Event :=
  if isTargetJob cfg job then
    let ev1 : List Event :=
      if cfg.force_manual ∧ job.status = "manual" then [Event.enable job.id true] else []
    let stressHit : Bool :=
      cfg.stress && (job.status == "success" || job.status == "failed")
    let st1 :=
      if stressHit then
        { st with
          stress_succ := if job.status = "success" then st.stress_succ + 1 else st.stress_succ
          stress_fail := if job.status = "failed" then st.stress_fail + 1 else st.stress_fail }
      else st
    let ev2 : List Event := if stressHit then [Event.retry job.id] else []
    if status_changed st1.target_statuses job.id job.status then
      ({ st1 with target_statuses := dictInsert st1.target_statuses job.id job.status },
        ev1 ++ ev2 ++ print_job_status_change job ++ [Event.historyWrite true job.id job.status])
    else
      (st1, ev1 ++ ev2 ++ print_job_status job)
  else
    let r1 : MonitorState × List Event :=
      if status_changed st.statuses job.id job.status then
        ({ st with statuses := dictInsert st.statuses job.id job.status },
          print_job_status_change job ++ [Event.historyWrite false job.id job.status])
      else (st, [])
    if job.name ∈ cfg.dependencies then
      if job.status = "manual" then (r1.1, r1.2 ++ [Event.enable job.id false]) else r1
    else if cfg.target_job.isSome ∧ job.status ∉ ["canceled", "success", "failed", "skipped"] then
      ({ r1.1 with to_cancel := r1.1.to_cancel ++ [job] }, r1.2)
    else r1

/-- The full job scan of one iteration. -/
def process_jobs (cfg : Config) (st : MonitorState) (jobs : List Job) :
    MonitorState × List Event :=
  jobs.foldl
    (fun acc job =>
      let r := process_job cfg acc.1 job
      (r.1, acc.2 ++ r.2))
    (st, [])

/-- Source function `cancel_jobs`: one remote cancel request per marked job. -/
def cancel_jobs (to_cancel : List Job) : List Event :=
  to_cancel.map (fun j => Event.cancel j.id)

/-- The termination evaluator (the tail of the loop body): in stress mode the
loop always continues; otherwise the three return checks run in order on
the target status history.  `none` = loop again; `some (jobId?, code?)` is
`monitor_pipeline`'s return value. -/
def evaluate_termination (stress : Bool) (ts : List (Nat × String)) :
    Option (Option Nat × Option Int) :=
  if stress then none
  else if ts.length = 1 ∧ "running" ∈ dictValues ts then
    some (ts.head?.map Prod.fst, none)
  else if ("failed" ∈ dictValues ts) ∨ ("canceled" ∈ dictValues ts) then
    some (none, some 1)
  else if ∀ v ∈ dictValues ts, v ∈ ["success", "manual"] then
    some (none, some 0)
  else none

/-- Result of one iteration of the `while True` loop. -/
structure IterationResult where
  state : MonitorState
  events : List Event
  decision : Option (Option Nat × Option Int)

/-- One iteration of `monitor_pipeline`'s loop: reset `to_cancel`, scan all
jobs, dispatch cancels (only when a target pattern was supplied), print the
stress tally or the separator, and evaluate termination. -/
def monitor_iteration (cfg : Config) (jobs : List Job) (st : MonitorState) :
    IterationResult :=
  let st0 := { st with to_cancel := [] }
  let r1 := process_jobs cfg st0 jobs
  let ev2 := if cfg.target_job.isSome then cancel_jobs r1.1.to_cancel else []
  let ev3 :=
    if cfg.stress then [Event.stressTally r1.1.stress_succ r1.1.stress_fail]
    else [Event.separator]
  { state := r1.1
    events := r1.2 ++ ev2 ++ ev3
    decision := evaluate_termination cfg.stress r1.1.target_statuses }

/-! ## Basic lemmas -/

theorem dictGet_mem {hist : List (Nat × String)} {j : Nat} {v : String}
    (h : dictGet hist j = some v) : (j, v) ∈ hist := by
  induction hist with
  | nil => simp [dictGet] at h
  | cons p t ih =>
    obtain ⟨k, w⟩ := p
    by_cases hk : k = j
    · subst hk
      simp [dictGet] at h
      simp [h]
    · simp [dictGet, hk] at h
      exact List.mem_cons_of_mem _ (ih h)

theorem isSubstringList_refl (l : List Char) : isSubstringList l l = true := by
  cases l with
  | nil => rfl
  | cons c t => simp [isSubstringList, List.isPrefixOf_iff_prefix]

theorem pyStrIn_refl (s : String) : pyStrIn s s = true :=
  isSubstringList_refl s.data

/-- On the fixed status enumeration, Python substring containment between two
status strings coincides with string equality. -/
theorem pyStrIn_eq_on_statuses :
    ∀ a ∈ STATUS_LIST, ∀ b ∈ STATUS_LIST, (pyStrIn a b = true ↔ a = b) := by
  decide

theorem length_one_mem_eq {ts : List (Nat × String)} {p : Nat × String}
    (h1 : ts.length = 1) (h2 : p ∈ ts) : ts = [p] := by
  match ts with
  | [q] => simp at h2; simp [h2]

/-! ## Claim theorems: termination evaluator -/

/-- C1: in non-stress mode, when the target status history has exactly one
entry and that entry's status is `running`, the evaluator returns the
hand-off `(some jobId, none)` — it does not fall through to the failure or
success checks. -/
theorem c1_single_running_handoff (ts : List (Nat × String)) (j : Nat)
    (h1 : ts.length = 1) (h2 : (j, "running") ∈ ts) :
    evaluate_termination false ts = some (some j, none) := by
  have hts : ts = [(j, "running")] := length_one_mem_eq h1 h2
  subst hts
  simp [evaluate_termination, dictValues]

theorem c1_single_running_handoff_witness :
    evaluate_termination false [(5, "running")] = some (some 5, none) :=
  c1_single_running_handoff [(5, "running")] 5 rfl (by simp)

/-- C2: in non-stress mode, when the single-running-target hand-off rule does
not apply and some recorded target status is `failed` or `canceled`, the
evaluator returns the failure result `(none, some 1)`, regardless of any
`success` entries also present. -/
theorem c2_failure_precedence (ts : List (Nat × String))
    (hno : ¬ (ts.length = 1 ∧ "running" ∈ dictValues ts))
    (hf : "failed" ∈ dictValues ts ∨ "canceled" ∈ dictValues ts) :
    evaluate_termination false ts = some (none, some 1) := by
  simp only [evaluate_termination, if_neg (Bool.false_ne_true), if_neg hno, if_pos hf]

theorem c2_failure_precedence_witness :
    evaluate_termination false [(1, "failed"), (2, "success"), (3, "success")] =
      some (none, some 1) :=
  c2_failure_precedence [(1, "failed"), (2, "success"), (3, "success")]
    (by simp [dictValues]) (by simp [dictValues])

/-- C3: in non-stress mode, when every recorded target status is `success` or
`manual` (so neither the hand-off rule nor the failure rule can apply), the
evaluator returns the success result `(none, some 0)`; in particular an
all-`success` target history yields `(none, some 0)`. -/
theorem c3_all_success_or_manual (ts : List (Nat × String))
    (hall : ∀ v ∈ dictValues ts, v = "success" ∨ v = "manual") :
    evaluate_termination false ts = some (none, some 0) := by
  have hrun : "running" ∉ dictValues ts := by
    intro hmem
    rcases hall _ hmem with h | h <;> simp at h
  have hfail : ¬ ("failed" ∈ dictValues ts ∨ "canceled" ∈ dictValues ts) := by
    rintro (hmem | hmem) <;> rcases hall _ hmem with h | h <;> simp at h
  have hsub : ∀ v ∈ dictValues ts, v ∈ ["success", "manual"] := by
    intro v hv
    rcases hall v hv with h | h <;> simp [h]
  simp only [evaluate_termination, if_neg (Bool.false_ne_true)]
  rw [if_neg (by rintro ⟨-, hmem⟩; exact hrun hmem), if_neg hfail, if_pos hsub]

theorem c3_all_success_or_manual_witness :
    evaluate_termination false [(1, "success"), (2, "success")] = some (none, some 0) :=
  c3_all_success_or_manual [(1, "success"), (2, "success")] (by simp [dictValues])

/-! ## Structural lemmas about the job scan -/

theorem process_jobs_nil (cfg : Config) (st : MonitorState) :
    process_jobs cfg st [] = (st, []) := rfl

theorem process_jobs_foldl_aux (cfg : Config) (jobs : List Job) :
    ∀ (st : MonitorState) (evs : List Event),
      jobs.foldl
        (fun acc job =>
          let r := process_job cfg acc.1 job
          (r.1, acc.2 ++ r.2))
        (st, evs) =
      ((process_jobs cfg st jobs).1, evs ++ (process_jobs cfg st jobs).2) := by
  induction jobs with
  | nil => intro st evs; simp [process_jobs]
  | cons job rest ih =>
    intro st evs
    simp only [process_jobs, List.foldl_cons]
    rw [ih, ih]
    simp

theorem process_jobs_cons (cfg : Config) (st : MonitorState) (job : Job) (rest : List Job) :
    process_jobs cfg st (job :: rest) =
      ((process_jobs cfg (process_job cfg st job).1 rest).1,
        (process_job cfg st job).2 ++ (process_jobs cfg (process_job cfg st job).1 rest).2) := by
  simp only [process_jobs, List.foldl_cons]
  rw [process_jobs_foldl_aux]
  exact Prod.ext rfl rfl

theorem process_job_nontarget_target_statuses (cfg : Config) (st : MonitorState) (job : Job)
    (h : isTargetJob cfg job = false) :
    (process_job cfg st job).1.target_statuses = st.target_statuses := by
  simp only [process_job, h, Bool.false_eq_true, if_false]
  split
  · split <;> split <;> rfl
  · split
    · split <;> rfl
    · split <;> rfl

theorem process_jobs_nontarget_target_statuses (cfg : Config) (jobs : List Job)
    (hall : ∀ j ∈ jobs, isTargetJob cfg j = false) :
    ∀ st : MonitorState, (process_jobs cfg st jobs).1.target_statuses = st.target_statuses := by
  induction jobs with
  | nil => intro st; rfl
  | cons job rest ih =>
    intro st
    rw [process_jobs_cons]
    simp only
    rw [ih (fun j hj => hall j (List.mem_cons_of_mem _ hj))]
    exact process_job_nontarget_target_statuses cfg st job (hall job (List.mem_cons_self _ _))

/-- C10: with an empty target status history the subset-of-`{success, manual}`
rule holds vacuously, so the non-stress evaluator returns the success result
`(none, some 0)`; consequently a full loop iteration in which no polled job is
classified as a target (no pattern supplied, or no job name matched) starting
from an empty target history terminates at that very evaluation with
`(none, some 0)` instead of polling again. -/
theorem c10_empty_history_success :
    evaluate_termination false [] = some (none, some 0) ∧
      ∀ (cfg : Config) (jobs : List Job) (st : MonitorState),
        cfg.stress = false →
        (∀ j ∈ jobs, isTargetJob cfg j = false) →
        st.target_statuses = [] →
        (monitor_iteration cfg jobs st).decision = some (none, some 0) := by
  constructor
  · rfl
  · intro cfg jobs st hstress hall hts
    simp only [monitor_iteration, hstress]
    rw [process_jobs_nontarget_target_statuses cfg jobs hall]
    simp only [hts]
    rfl

theorem c10_empty_history_success_witness :
    evaluate_termination false [] = some (none, some 0) ∧
      (monitor_iteration ⟨none, [], false, false⟩
          [⟨7, "build-x", "u", "pending"⟩] ⟨[], [], 0, 0, []⟩).decision =
        some (none, some 0) :=
  ⟨c10_empty_history_success.1,
    c10_empty_history_success.2 ⟨none, [], false, false⟩
      [⟨7, "build-x", "u", "pending"⟩] ⟨[], [], 0, 0, []⟩ rfl
      (by intro j hj; simp at hj; subst hj; rfl) rfl⟩

/-! ## Cancellation marking -/

/-- The condition under which the loop body appends a job to `to_cancel`:
not a target, not a dependency, a target pattern was supplied, and the
status is not already terminal-ish. -/
def markedForCancel (cfg : Config) (job : Job) : Bool :=
  if isTargetJob cfg job = false ∧ job.name ∉ cfg.dependencies ∧
      cfg.target_job.isSome = true ∧
      job.status ∉ ["canceled", "success", "failed", "skipped"] then true else false

/-- Detects a remote cancel request in the event trace. -/
def isCancelEvent : Event → Bool
  | Event.cancel _ => true
  | _ => false

theorem process_job_to_cancel (cfg : Config) (st : MonitorState) (job : Job) :
    (process_job cfg st job).1.to_cancel =
      st.to_cancel ++ (if markedForCancel cfg job then [job] else []) := by
  by_cases ht : isTargetJob cfg job = true
  · have hm : markedForCancel cfg job = false := by simp [markedForCancel, ht]
    simp [process_job, ht, hm, apply_ite Prod.fst, apply_ite MonitorState.to_cancel]
  · have ht' : isTargetJob cfg job = false := by simpa using ht
    simp only [process_job, ht', Bool.false_eq_true, if_false]
    by_cases hdep : job.name ∈ cfg.dependencies
    · have hm : markedForCancel cfg job = false := by simp [markedForCancel, hdep]
      simp [hdep, hm, apply_ite Prod.fst, apply_ite MonitorState.to_cancel]
    · by_cases hc : cfg.target_job.isSome = true ∧
          job.status ∉ ["canceled", "success", "failed", "skipped"]
      · have hm : markedForCancel cfg job = true := by
          simp [markedForCancel, ht', hdep, hc.1, hc.2]
        simp [hdep, hc, hm, apply_ite Prod.fst, apply_ite MonitorState.to_cancel]
      · have hm : markedForCancel cfg job = false := by
          simp only [markedForCancel, ite_eq_right_iff]
          intro h
          exact absurd ⟨h.2.2.1, h.2.2.2⟩ hc
        rw [if_neg hdep, if_neg hc, hm]
        simp [apply_ite Prod.fst, apply_ite MonitorState.to_cancel]

theorem process_jobs_to_cancel (cfg : Config) (jobs : List Job) :
    ∀ st : MonitorState,
      (process_jobs cfg st jobs).1.to_cancel =
        st.to_cancel ++ jobs.filter (fun j => markedForCancel cfg j) := by
  induction jobs with
  | nil => intro st; simp [process_jobs]
  | cons job rest ih =>
    intro st
    rw [process_jobs_cons]
    simp only
    rw [ih, process_job_to_cancel]
    by_cases hmk : markedForCancel cfg job = true <;> simp [hmk]

theorem filter_cancel_print_job_status (job : Job) :
    (print_job_status job).filter isCancelEvent = [] := by
  simp [print_job_status, apply_ite (List.filter isCancelEvent), isCancelEvent]

theorem filter_cancel_print_job_status_change (job : Job) :
    (print_job_status_change job).filter isCancelEvent = [] := by
  simp [print_job_status_change, apply_ite (List.filter isCancelEvent), isCancelEvent]

theorem process_job_no_cancel_events (cfg : Config) (st : MonitorState) (job : Job) :
    (process_job cfg st job).2.filter isCancelEvent = [] := by
  simp [process_job, List.filter_append, apply_ite Prod.snd,
    apply_ite (List.filter isCancelEvent), filter_cancel_print_job_status,
    filter_cancel_print_job_status_change, isCancelEvent]

theorem process_jobs_no_cancel_events (cfg : Config) (jobs : List Job) :
    ∀ st : MonitorState, (process_jobs cfg st jobs).2.filter isCancelEvent = [] := by
  induction jobs with
  | nil => intro st; simp [process_jobs]
  | cons job rest ih =>
    intro st
    rw [process_jobs_cons]
    simp [List.filter_append, process_job_no_cancel_events, ih]

theorem filter_cancel_cancel_jobs (l : List Job) :
    (cancel_jobs l).filter isCancelEvent = cancel_jobs l := by
  rw [List.filter_eq_self]
  intro e he
  simp only [cancel_jobs, List.mem_map] at he
  obtain ⟨j, -, rfl⟩ := he
  rfl

theorem markedForCancel_iff (cfg : Config) (job : Job) :
    markedForCancel cfg job = true ↔
      (isTargetJob cfg job = false ∧ job.name ∉ cfg.dependencies ∧
        cfg.target_job.isSome = true ∧
        job.status ∉ ["canceled", "success", "failed", "skipped"]) := by
  unfold markedForCancel
  by_cases h : isTargetJob cfg job = false ∧ job.name ∉ cfg.dependencies ∧
      cfg.target_job.isSome = true ∧
      job.status ∉ ["canceled", "success", "failed", "skipped"]
  · simp [h]
  · simp [h]

/-- C4: with a target pattern supplied, a polled job ends up marked for
cancellation exactly when it is classified neither target nor dependency and
its status is outside `{canceled, success, failed, skipped}`; the cancel
requests issued at the end of the iteration are exactly one per marked job;
in particular no target-classified job is ever marked. -/
theorem c4_cancellation (cfg : Config) (mtr : String → Bool)
    (hm : cfg.target_job = some mtr) (jobs : List Job) (st : MonitorState) :
    (monitor_iteration cfg jobs st).state.to_cancel =
        jobs.filter (fun j => markedForCancel cfg j) ∧
      (∀ j : Job, j ∈ (monitor_iteration cfg jobs st).state.to_cancel ↔
        (j ∈ jobs ∧ isTargetJob cfg j = false ∧ j.name ∉ cfg.dependencies ∧
          j.status ∉ ["canceled", "success", "failed", "skipped"])) ∧
      (monitor_iteration cfg jobs st).events.filter isCancelEvent =
        (monitor_iteration cfg jobs st).state.to_cancel.map (fun j => Event.cancel j.id) := by
  have hsome : cfg.target_job.isSome = true := by rw [hm]; rfl
  have hstate : (monitor_iteration cfg jobs st).state.to_cancel =
      jobs.filter (fun j => markedForCancel cfg j) := by
    simp only [monitor_iteration]
    rw [process_jobs_to_cancel]
    simp
  refine ⟨hstate, ?_, ?_⟩
  · intro j
    rw [hstate, List.mem_filter]
    rw [markedForCancel_iff]
    constructor
    · rintro ⟨hj, h1, h2, -, h4⟩
      exact ⟨hj, h1, h2, h4⟩
    · rintro ⟨hj, h1, h2, h4⟩
      exact ⟨hj, h1, h2, hsome, h4⟩
  · rw [hstate]
    simp only [monitor_iteration, hsome, if_true]
    rw [List.filter_append, List.filter_append, process_jobs_no_cancel_events,
      filter_cancel_cancel_jobs]
    have hev3 : ∀ b : Bool,
        (if b = true then [Event.stressTally
            (process_jobs cfg { st with to_cancel := [] } jobs).1.stress_succ
            (process_jobs cfg { st with to_cancel := [] } jobs).1.stress_fail]
          else [Event.separator]).filter isCancelEvent = [] := by
      intro b
      cases b <;> simp [isCancelEvent]
    rw [hev3]
    rw [process_jobs_to_cancel]
    simp [cancel_jobs]

def c4cfg : Config :=
  ⟨some (fun n => n == "t1"), ["dep1"], false, false⟩

def c4jobs : List Job :=
  [⟨1, "t1", "u1", "running"⟩, ⟨2, "dep1", "u2", "manual"⟩,
    ⟨3, "other", "u3", "running"⟩, ⟨4, "other2", "u4", "success"⟩]

def c4st : MonitorState := ⟨[], [], 0, 0, []⟩

theorem c4_cancellation_witness :
    (monitor_iteration c4cfg c4jobs c4st).state.to_cancel = [⟨3, "other", "u3", "running"⟩] ∧
      (monitor_iteration c4cfg c4jobs c4st).events.filter isCancelEvent = [Event.cancel 3] := by
  have h := c4_cancellation c4cfg (fun n => n == "t1") rfl c4jobs c4st
  have h1 : (monitor_iteration c4cfg c4jobs c4st).state.to_cancel =
      [⟨3, "other", "u3", "running"⟩] := by
    rw [h.1]
    decide
  refine ⟨h1, ?_⟩
  rw [h.2.2, h1]
  rfl

/-! ## Claim theorems: status tracker -/

theorem status_changed_dictGet (hist : List (Nat × String)) (jobId : Nat) (status : String)
    (hs : status ∈ STATUS_LIST) (hh : ∀ p ∈ hist, p.2 ∈ STATUS_LIST) :
    (status_changed hist jobId status = true ↔ ¬ dictGet hist jobId = some status) := by
  unfold status_changed
  cases hget : dictGet hist jobId with
  | none => simp
  | some stored =>
    have hst : stored ∈ STATUS_LIST := hh (jobId, stored) (dictGet_mem hget)
    constructor
    · intro hb heq
      have : pyStrIn status stored = true := by
        have : stored = status := by injection heq
        subst this
        exact pyStrIn_refl stored
      simp [this] at hb
    · intro hne
      have hneq : ¬ status = stored := by
        intro h
        exact hne (by rw [h])
      have : ¬ pyStrIn status stored = true := by
        intro hsub
        exact hneq ((pyStrIn_eq_on_statuses status hs stored hst).mp hsub)
      simp [this]

/-- C5: on the fixed status enumeration, the tracker's substring-based test
coincides with status inequality: the record step reports a change exactly
when the job id is absent from the history or the stored status differs from
the new one, and after a reported change the history maps the job id to the
new status (the dict assignment `history[jobId] = status`). -/
theorem c5_tracker_change (hist : List (Nat × String)) (jobId : Nat) (status : String)
    (hs : status ∈ STATUS_LIST) (hh : ∀ p ∈ hist, p.2 ∈ STATUS_LIST) :
    (status_changed hist jobId status = true ↔
      (dictGet hist jobId = none ∨ ¬ dictGet hist jobId = some status)) ∧
      dictGet (dictInsert hist jobId status) jobId = some status := by
  constructor
  · rw [status_changed_dictGet hist jobId status hs hh]
    constructor
    · intro h
      exact Or.inr h
    · rintro (h | h)
      · rw [h]
        simp
      · exact h
  · induction hist with
    | nil => simp [dictInsert, dictGet]
    | cons p t ih =>
      obtain ⟨k, v⟩ := p
      by_cases hk : k = jobId
      · subst hk
        simp [dictInsert, dictGet]
      · simp only [dictInsert, hk, if_false, dictGet]
        exact ih (fun q hq => hh q (List.mem_cons_of_mem _ hq))

theorem c5_tracker_change_witness :
    (status_changed [(1, "running")] 1 ("success") = true ↔
      (dictGet [(1, "running")] 1 = none ∨
        ¬ dictGet [(1, "running")] 1 = some ("success"))) ∧
      dictGet (dictInsert [(1, "running")] 1 ("success")) 1 = some ("success") :=
  c5_tracker_change [(1, "running")] 1 ("success") (by decide) (by decide)

/-! ## Claim theorems: unchanged-status processing -/

/-- Detects a history assignment (`statuses[job.id] = ...` or
`target_statuses[job.id] = ...`) in the event trace. -/
def isHistoryWriteEvent : Event → Bool
  | Event.historyWrite _ _ _ => true
  | _ => false

def c6cfg : Config := ⟨some (fun n => n == "jobA"), [], false, false⟩

def c6job : Job := ⟨1, "jobA", "u", "running"⟩

def c6st : MonitorState := ⟨[], [(1, "running")], 0, 0, []⟩

theorem c6_no_rewrite_counterexample :
    (process_job c6cfg c6st c6job).2 = [Event.statusLine 1] ∧
      Event.historyWrite true 1 ("running") ∉ (process_job c6cfg c6st c6job).2 ∧
      (process_job c6cfg c6st c6job).1.target_statuses = [(1, "running")] := by
  refine ⟨?_, ?_, ?_⟩
  · rfl
  · decide
  · rfl

/-- C6 (amended): a polled target job whose status is unchanged since the
previous poll and is not `canceled` triggers no history assignment at all
(the unchanged branch skips the write and the entry keeps its value), and
prints the routine "unchanged" status line, never the "changed" variant;
processing is total, so no exception is raised. -/
theorem process_job_target_unchanged (cfg : Config) (st : MonitorState) (job : Job)
    (ht : isTargetJob cfg job = true)
    (hchg : status_changed st.target_statuses job.id job.status = false) :
    (process_job cfg st job).2 =
        (if cfg.force_manual = true ∧ job.status = "manual"
          then [Event.enable job.id true] else []) ++
          (if (cfg.stress && (job.status == "success" || job.status == "failed")) = true
            then [Event.retry job.id] else []) ++
          print_job_status job ∧
      (process_job cfg st job).1.target_statuses = st.target_statuses ∧
      (process_job cfg st job).1.statuses = st.statuses := by
  by_cases hsh : (cfg.stress && (job.status == "success" || job.status == "failed")) = true
  · simp [process_job, ht, hsh, hchg]
  · simp [process_job, ht, hsh, hchg]

theorem c6_unchanged_no_write (cfg : Config) (st : MonitorState) (job : Job)
    (htarget : isTargetJob cfg job = true)
    (hunchanged : dictGet st.target_statuses job.id = some job.status)
    (hnc : job.status ≠ "canceled") :
    (process_job cfg st job).1.target_statuses = st.target_statuses ∧
      (process_job cfg st job).1.statuses = st.statuses ∧
      (process_job cfg st job).2.filter isHistoryWriteEvent = [] ∧
      Event.statusLine job.id ∈ (process_job cfg st job).2 ∧
      ∀ i : Nat, Event.statusChangedLine i ∉ (process_job cfg st job).2 := by
  have hchg : status_changed st.target_statuses job.id job.status = false := by
    unfold status_changed
    rw [hunchanged]
    simp [pyStrIn_refl]
  obtain ⟨htr, hts, hst⟩ := process_job_target_unchanged cfg st job htarget hchg
  refine ⟨hts, hst, ?_, ?_, ?_⟩
  · rw [htr]
    simp [List.filter_append, apply_ite (List.filter isHistoryWriteEvent),
      print_job_status, hnc, isHistoryWriteEvent]
  · rw [htr]
    simp [List.mem_append, print_job_status, hnc]
  · intro i
    rw [htr]
    by_cases h1 : cfg.force_manual = true ∧ job.status = "manual" <;>
      by_cases h2 : (cfg.stress && (job.status == "success" || job.status == "failed")) = true <;>
        simp [h1, h2, print_job_status, hnc]

theorem c6_unchanged_no_write_witness :
    (process_job c6cfg c6st c6job).1.target_statuses = c6st.target_statuses ∧
      Event.statusLine 1 ∈ (process_job c6cfg c6st c6job).2 ∧
      (process_job c6cfg c6st c6job).2.filter isHistoryWriteEvent = [] := by
  have h := c6_unchanged_no_write c6cfg c6st c6job rfl rfl (by decide)
  exact ⟨h.1, h.2.2.2.1, h.2.2.1⟩

/-! ## Claim theorems: stress mode -/

/-- C7: in stress mode the loop iteration never produces a terminal decision
(the evaluator is never reached past the stress branch, which prints the
running tally and loops), and each poll of a target job observed `success`
(resp. `failed`) increments the matching stress counter by exactly one,
leaving the other counter unchanged. -/
theorem c7_stress_never_terminates :
    (∀ (cfg : Config) (jobs : List Job) (st : MonitorState), cfg.stress = true →
        (monitor_iteration cfg jobs st).decision = none ∧
          (monitor_iteration cfg jobs st).events.getLast? =
            some (Event.stressTally (monitor_iteration cfg jobs st).state.stress_succ
              (monitor_iteration cfg jobs st).state.stress_fail)) ∧
      (∀ (cfg : Config) (st : MonitorState) (job : Job),
        cfg.stress = true → isTargetJob cfg job = true → job.status = "success" →
          (process_job cfg st job).1.stress_succ = st.stress_succ + 1 ∧
            (process_job cfg st job).1.stress_fail = st.stress_fail) ∧
      (∀ (cfg : Config) (st : MonitorState) (job : Job),
        cfg.stress = true → isTargetJob cfg job = true → job.status = "failed" →
          (process_job cfg st job).1.stress_fail = st.stress_fail + 1 ∧
            (process_job cfg st job).1.stress_succ = st.stress_succ) := by
  refine ⟨?_, ?_, ?_⟩
  · intro cfg jobs st hstress
    constructor
    · simp [monitor_iteration, hstress, evaluate_termination]
    · simp only [monitor_iteration, hstress, if_true]
      rw [List.getLast?_append, List.getLast?_append]
      simp
  · intro cfg st job hstress ht hs
    constructor <;>
      simp [process_job, ht, hstress, hs, apply_ite Prod.fst,
        apply_ite MonitorState.stress_succ, apply_ite MonitorState.stress_fail]
  · intro cfg st job hstress ht hs
    constructor <;>
      simp [process_job, ht, hstress, hs, apply_ite Prod.fst,
        apply_ite MonitorState.stress_succ, apply_ite MonitorState.stress_fail]

def c7cfg : Config := ⟨some (fun n => n == "t"), [], false, true⟩

def c7st : MonitorState := ⟨[], [], 0, 0, []⟩

theorem c7_stress_never_terminates_witness :
    (monitor_iteration c7cfg [] c7st).decision = none ∧
      (process_job c7cfg c7st ⟨1, "t", "u", "success"⟩).1.stress_succ = 1 ∧
      (process_job c7cfg c7st ⟨1, "t", "u", "failed"⟩).1.stress_fail = 1 := by
  refine ⟨(c7_stress_never_terminates.1 c7cfg [] c7st rfl).1, ?_, ?_⟩
  · have h := (c7_stress_never_terminates.2.1 c7cfg c7st ⟨1, "t", "u", "success"⟩ rfl rfl rfl).1
    simpa using h
  · have h := (c7_stress_never_terminates.2.2 c7cfg c7st ⟨1, "t", "u", "failed"⟩ rfl rfl rfl).1
    simpa using h

/-! ## Log streamer and the main exit path -/

/-- One polled observation of the streamed job: the full accumulated log
(split into lines, as `job.trace()...splitlines()`) and the job's status. -/
structure LogSnapshot where
  lines : List String
  status : String
deriving DecidableEq

/-- The distinguished completion notice printed by `print_log` when the job
reaches a completed status. -/
def job_finished_notice : String := "Job finished"

/-- The loop of `print_log` over successive remote observations: each poll
re-fetches the whole log, prints the lines past `printed_lines`, updates the
count to the full length, and returns once the status is in
`COMPLETED_STATUSES` (printing the completion notice).  The observation list
plays the role of time; `none` means the loop was still running when the
observations ran out. -/
def print_log_run : List LogSnapshot → Nat → Option (List String)
  | [], _ => none
  | s :: rest, printed_lines =>
    if s.status ∈ COMPLETED_STATUSES then
      some (s.lines.drop printed_lines ++ [job_finished_notice])
    else
      (print_log_run rest s.lines.length).map
        (fun out => s.lines.drop printed_lines ++ out)

/-- Python truthiness of `target_job_id` in `if target_job_id:`. -/
def pyTruthyOptNat : Option Nat → Bool
  | none => false
  | some n => n != 0

/-- Semantics of `sys.exit(ret)`: `sys.exit(None)` exits the process with
status 0, `sys.exit(k)` with status `k`. -/
def sys_exit_code : Option Int → Int
  | none => 0
  | some c => c

/-- Tail of `__main__` after `monitor_pipeline` returns: stream the target
job's log when a job id was handed off, then exit with the evaluator's code.
The streamed output (over the given remote observations) is returned next to
the process exit code. -/
def main_tail (result : Option Nat × Option Int) (snaps : List LogSnapshot) :
    Option (List String) × Int :=
  (if pyTruthyOptNat result.1 then print_log_run snaps 0 else none,
    sys_exit_code result.2)

/-- C8: whenever the termination evaluator returns a result with no exit code
— which is exactly the hand-off shape `(some jobId, None)` — the process exit
code computed after log streaming is 0, for every possible streamed log and
in particular regardless of the streamed job's final status. -/
theorem c8_handoff_exits_zero (ts : List (Nat × String)) (res : Option Nat × Option Int)
    (snaps : List LogSnapshot)
    (_heval : evaluate_termination false ts = some res) (hcode : res.2 = none) :
    (main_tail res snaps).2 = 0 := by
  simp [main_tail, hcode, sys_exit_code]

theorem c8_handoff_exits_zero_witness :
    (main_tail (some 1, none) [⟨["line1"], "failed"⟩]).2 = 0 :=
  c8_handoff_exits_zero [(1, "running")] (some 1, none) [⟨["line1"], "failed"⟩]
    (by decide) rfl

/-! ## Claim theorems: log streamer -/

theorem drop_append_of_le_len {α : Type} (l t : List α) :
    ∀ n : Nat, n ≤ l.length → (l ++ t).drop n = l.drop n ++ t := by
  induction l with
  | nil =>
    intro n hn
    simp at hn
    subst hn
    simp
  | cons a l ih =>
    intro n hn
    cases n with
    | zero => simp
    | succ m =>
      simp only [List.cons_append, List.drop_succ_cons]
      exact ih m (by simpa using hn)

theorem isSome_option_map {α β : Type} (f : α → β) (o : Option α) :
    (o.map f).isSome = o.isSome := by
  cases o <;> rfl

theorem print_log_run_isSome (snaps : List LogSnapshot) :
    ∀ printed : Nat,
      ((print_log_run snaps printed).isSome = true ↔
        ∃ s ∈ snaps, s.status ∈ COMPLETED_STATUSES) := by
  induction snaps with
  | nil =>
    intro printed
    simp [print_log_run]
  | cons s rest ih =>
    intro printed
    by_cases hc : s.status ∈ COMPLETED_STATUSES
    · simp [print_log_run, hc]
    · simp only [print_log_run, hc, if_false, isSome_option_map, ih]
      constructor
      · rintro ⟨s2, hmem, hs2⟩
        exact ⟨s2, List.mem_cons_of_mem _ hmem, hs2⟩
      · rintro ⟨s2, hmem, hs2⟩
        rcases List.mem_cons.mp hmem with rfl | hmem
        · exact absurd hs2 hc
        · exact ⟨s2, hmem, hs2⟩

theorem print_log_run_output (snaps : List LogSnapshot) :
    ∀ printed : Nat,
      List.Chain' (fun a b => ∃ t, a.lines ++ t = b.lines) snaps →
      (∀ h0 ∈ snaps.head?, printed ≤ h0.lines.length) →
      ∀ out, print_log_run snaps printed = some out →
        ∃ s ∈ snaps, s.status ∈ COMPLETED_STATUSES ∧
          out = s.lines.drop printed ++ [job_finished_notice] ∧
          printed ≤ s.lines.length ∧
          ∀ h0 ∈ snaps.head?, ∃ t, h0.lines ++ t = s.lines := by
  induction snaps with
  | nil =>
    intro printed _ _ out hout
    simp [print_log_run] at hout
  | cons s rest ih =>
    intro printed hchain hle out hout
    have hles : printed ≤ s.lines.length := hle s rfl
    by_cases hc : s.status ∈ COMPLETED_STATUSES
    · simp only [print_log_run, hc, if_true, Option.some_inj] at hout
      refine ⟨s, List.mem_cons_self _ _, hc, hout.symm, hles, ?_⟩
      intro h0 hh0
      simp only [List.head?_cons, Option.mem_def, Option.some_inj] at hh0
      exact ⟨[], by rw [← hh0]; simp⟩
    · simp only [print_log_run, hc, if_false, Option.map_eq_some'] at hout
      obtain ⟨out1, hout1, hout2⟩ := hout
      have hchain2 := (List.chain'_cons'.mp hchain).2
      have hrel := (List.chain'_cons'.mp hchain).1
      have hle2 : ∀ h0 ∈ rest.head?, s.lines.length ≤ h0.lines.length := by
        intro h0 hh0
        obtain ⟨t, ht⟩ := hrel h0 hh0
        rw [← ht]
        simp
      obtain ⟨s2, hmem, hs2, hout3, hlen2, hext⟩ :=
        ih s.lines.length hchain2 hle2 out1 hout1
      have hsext : ∃ t, s.lines ++ t = s2.lines := by
        cases rest with
        | nil => simp at hmem
        | cons r0 rrest =>
          obtain ⟨u, hu⟩ := hrel r0 rfl
          obtain ⟨v, hv⟩ := hext r0 rfl
          exact ⟨u ++ v, by rw [← hv, ← hu, List.append_assoc]⟩
      obtain ⟨t, ht⟩ := hsext
      refine ⟨s2, List.mem_cons_of_mem _ hmem, hs2, ?_, ?_, ?_⟩
      · rw [← hout2, hout3]
        rw [← ht, List.drop_left, drop_append_of_le_len s.lines t printed hles]
        simp [List.append_assoc]
      · rw [← ht]
        simp only [List.length_append]
        omega
      · intro h0 hh0
        simp only [List.head?_cons, Option.mem_def, Option.some_inj] at hh0
        exact ⟨t, by rw [← hh0]; exact ht⟩

/-- C9: the log streamer, run over the successive remote observations of
the job, terminates exactly when some observation has a status in the
completed set `{success, failed}`; whenever it terminates, the lines it
printed are exactly the lines of the final observed log beyond the initial
printed-line count (each line printed once, earlier lines never reprinted),
followed by the completion notice. -/
theorem c9_log_streamer (snaps : List LogSnapshot) (printed : Nat)
    (hchain : List.Chain' (fun a b => ∃ t, a.lines ++ t = b.lines) snaps)
    (hle : ∀ h0 ∈ snaps.head?, printed ≤ h0.lines.length) :
    ((print_log_run snaps printed).isSome = true ↔
        ∃ s ∈ snaps, s.status ∈ COMPLETED_STATUSES) ∧
      ∀ out, print_log_run snaps printed = some out →
        ∃ s ∈ snaps, s.status ∈ COMPLETED_STATUSES ∧
          out = s.lines.drop printed ++ [job_finished_notice] := by
  constructor
  · exact print_log_run_isSome snaps printed
  · intro out hout
    obtain ⟨s, hmem, hs, hout2, -, -⟩ :=
      print_log_run_output snaps printed hchain hle out hout
    exact ⟨s, hmem, hs, hout2⟩

def c9snaps : List LogSnapshot :=
  [⟨["a"], "running"⟩, ⟨["a", "b"], "success"⟩]

theorem c9_log_streamer_witness :
    (print_log_run c9snaps 0).isSome = true :=
  (c9_log_streamer c9snaps 0
      (by simp [c9snaps, List.chain'_cons])
      (by intro h0 hh0; simp)).1.mpr
    ⟨⟨["a", "b"], "success"⟩, by simp [c9snaps], by simp [COMPLETED_STATUSES]⟩
